import Mathlib

/-!
Verification of the xlformula repository's core: the column-letter codec and
reference builder (`lib/reference.py`), the composite node tree and its
string compilation (`lib/composite.py`, `lib/call.py`), the argument-arity
contract (`lib/argument.py`), and the owner-assignment dynamics of node
construction.  Every definition is a shallow embedding of the corresponding
Python function, keeping the source's names where Lean allows it.
-/

namespace Xlformula

/-! ## Column-letter codec (`lib/reference.py`, `_alpha_column` / `_numeric_column`)

`_alpha_recursion(value, string)` computes `mod, div = value % 26, value // 26`,
prepends `ascii_uppercase[mod]` to `string`, and recurses on `div - 1` while
`div >= 1`.  We model the integer branch for non-negative inputs with `Nat`
(the claims only concern columns `>= 1`, where Python's `%` and `//` agree
with `Nat.mod` and `Nat.div`).  `ascii_uppercase[m]` is the character with
code `65 + m`. -/

def alphaRecursion (value : Nat) (s : String) : String :=
  let m := value % 26
  let d := value / 26
  let s2 := String.singleton (Char.ofNat (65 + m)) ++ s
  if d < 1 then s2 else alphaRecursion (d - 1) s2
termination_by value
decreasing_by
  have hd : value / 26 ≤ value := Nat.div_le_self value 26
  omega

/-- `_alpha_column(value)`: shift the 1-based column index to 0-based and run
the recursion (the `str` fast path and the `TypeError` branch concern
non-integer inputs, outside this embedding's domain). -/
def alphaColumn (value : Nat) : String :=
  alphaRecursion (value - 1) ""

/-- The summation loop of `_numeric_column`: iterating over the reversed
character list with a running index `i`, it adds `26 ^ i * (position + 1)`
where `position` is `ascii_uppercase.index(char) = char - 65`. -/
def numericAux : List Char → Nat → Nat
  | [], _ => 0
  | c :: rest, i => 26 ^ i * (c.toNat - 65 + 1) + numericAux rest (i + 1)

/-- `_numeric_column(column)` for string input: uppercase the string, reverse
it, and run the summation loop (the `int` fast path returns the input
unchanged and is not needed here). -/
def numericColumn (column : String) : Nat :=
  numericAux ((column.data.map Char.toUpper).reverse) 0

/-! Round-trip lemmas for the codec. -/

theorem alphaRecursion_append (value : Nat) (s : String) :
    alphaRecursion value s = alphaRecursion value "" ++ s := by
  induction value using Nat.strong_induction_on generalizing s with
  | _ value ih =>
    by_cases h : value / 26 < 1
    · conv_lhs => rw [alphaRecursion]
      conv_rhs => rw [alphaRecursion]
      simp only [if_pos h]
      apply String.ext
      simp [String.data_append, String.singleton]
    · conv_lhs => rw [alphaRecursion]
      conv_rhs => rw [alphaRecursion]
      simp only [if_neg h]
      have hlt : value / 26 - 1 < value := by
        have := Nat.div_le_self value 26
        omega
      rw [ih _ hlt (String.singleton (Char.ofNat (65 + value % 26)) ++ s),
          ih _ hlt (String.singleton (Char.ofNat (65 + value % 26)) ++ "")]
      apply String.ext
      simp [String.data_append]

theorem numericAux_succ (l : List Char) (i : Nat) :
    numericAux l (i + 1) = 26 * numericAux l i := by
  induction l generalizing i with
  | nil => simp [numericAux]
  | cons c rest ih =>
    simp [numericAux, ih, pow_succ]
    ring

theorem toUpper_ofNat_upper (m : Nat) (hm : m < 26) :
    Char.toUpper (Char.ofNat (65 + m)) = Char.ofNat (65 + m) := by
  interval_cases m <;> decide

theorem toNat_ofNat_upper (m : Nat) (hm : m < 26) :
    (Char.ofNat (65 + m)).toNat = 65 + m := by
  interval_cases m <;> decide

/-- The recursion built for `value` decodes back to `value + 1`. -/
theorem numericColumn_alphaRecursion (value : Nat) :
    numericColumn (alphaRecursion value "") = value + 1 := by
  induction value using Nat.strong_induction_on with
  | _ value ih =>
    rw [alphaRecursion]
    by_cases h : value / 26 < 1
    · simp only [if_pos h]
      have hm : value % 26 = value := Nat.mod_eq_of_lt (by omega : value < 26)
      simp [numericColumn, String.data_append, String.singleton, numericAux,
        toUpper_ofNat_upper (value % 26) (Nat.mod_lt _ (by norm_num)),
        toNat_ofNat_upper (value % 26) (Nat.mod_lt _ (by norm_num))]
      omega
    · simp only [if_neg h]
      have hlt : value / 26 - 1 < value := by
        have := Nat.div_le_self value 26
        omega
      rw [alphaRecursion_append]
      have hm : value % 26 < 26 := Nat.mod_lt _ (by norm_num)
      have hx := ih _ hlt
      simp only [numericColumn, String.data_append] at hx ⊢
      simp [String.singleton, numericAux, toUpper_ofNat_upper _ hm,
        toNat_ofNat_upper _ hm, numericAux_succ, hx]
      have hdm := Nat.div_add_mod value 26
      have h1 : 1 ≤ value / 26 := by omega
      ring_nf
      omega

theorem alphaRecursion_lt (v : Nat) (h : v < 26) (s : String) :
    alphaRecursion v s = String.singleton (Char.ofNat (65 + v)) ++ s := by
  have hd : v / 26 = 0 := Nat.div_eq_of_lt h
  have hm : v % 26 = v := Nat.mod_eq_of_lt h
  rw [alphaRecursion]
  simp [hd, hm]

theorem alphaColumn_one : alphaColumn 1 = "A" := by
  rw [alphaColumn, alphaRecursion_lt 0 (by norm_num)]
  decide

theorem alphaColumn_twentysix : alphaColumn 26 = "Z" := by
  rw [alphaColumn, alphaRecursion_lt 25 (by norm_num)]
  decide

theorem alphaColumn_twentyseven : alphaColumn 27 = "AA" := by
  rw [alphaColumn]
  rw [alphaRecursion]
  norm_num
  rw [alphaRecursion_lt 0 (by norm_num)]
  decide

/-- C2: for every column index `>= 1`, `_numeric_column` inverts
`_alpha_column` (`letters_to_index(index_to_letters(column)) == column`), and
index 1 maps to "A", 26 to "Z", 27 to "AA" (bijective base-26 with no zero
symbol). -/
theorem alphaColumn_numericColumn_roundtrip :
    (∀ column : Nat, 1 ≤ column → numericColumn (alphaColumn column) = column) ∧
    alphaColumn 1 = "A" ∧ alphaColumn 26 = "Z" ∧ alphaColumn 27 = "AA" := by
  refine ⟨fun column h => ?_, alphaColumn_one, alphaColumn_twentysix,
    alphaColumn_twentyseven⟩
  rw [alphaColumn, numericColumn_alphaRecursion]
  omega

/-- Witness for the round-trip at the concrete column 703 (= "AAA"). -/
theorem alphaColumn_numericColumn_roundtrip_witness :
    1 ≤ 703 ∧ numericColumn (alphaColumn 703) = 703 :=
  ⟨by norm_num, alphaColumn_numericColumn_roundtrip.1 703 (by norm_num)⟩

/-! ## Reference strings (`lib/reference.py`)

The reference-type constants are generated as `ABS_REF = 1`, `ABS_ROW = 2`,
`ABS_COL = 3`, `REL_REF = 4`; we model them as an enumeration. -/

inductive RefKind where
  | absRef
  | absRow
  | absCol
  | relRef
deriving DecidableEq

/-- `_build_single_cell_string(row, col, ref)`, translated line by line.  The
source's column branch reads `col_string = f"${row_string}"`: the absolute
marker is glued to the ROW string, reproduced here exactly as written. -/
def buildSingleCellString (row col : Nat) (ref : RefKind) : String :=
  let rowString := if row ≠ 0 then toString row else ""
  let rowString :=
    if rowString ≠ "" ∧ (ref = RefKind.absRef ∨ ref = RefKind.absRow)
    then "$" ++ rowString else rowString
  let colString := alphaColumn col
  let colString :=
    if colString ≠ "" ∧ (ref = RefKind.absRef ∨ ref = RefKind.absCol)
    then "$" ++ rowString else colString
  colString ++ rowString

/-- Python truthiness of an optional integer (`None` and `0` are falsy). -/
def pyTruthyNat : Option Nat → Bool
  | none => false
  | some n => n != 0

/-- `_build_reference_string(row, col, ref, sheet=…, workbook=…, r_row=…,
r_col=…, r_ref=…)`.  The second cell is built when `(r_row or r_col) and
r_ref` is truthy; this embedding covers range parameters that are either both
supplied or both absent (the mixed case raises `TypeError` inside
`_alpha_column` in the source and is outside every claim's domain). -/
def buildReferenceString (row col : Nat) (ref : RefKind)
    (sheet workbook : Option String)
    (rRow rCol : Option Nat) (rRef : Option RefKind) : String :=
  let wbString := match workbook with
    | some w => if w ≠ "" then "[" ++ w ++ "]" else ""
    | none => ""
  let sheetString := match sheet with
    | some t => if t ≠ "" then "'" ++ t ++ "'!" else ""
    | none => ""
  let refString := buildSingleCellString row col ref
  let rangeRefString :=
    if (pyTruthyNat rRow || pyTruthyNat rCol) && rRef.isSome then
      buildSingleCellString (rRow.getD 0) (rCol.getD 0) (rRef.getD RefKind.relRef)
    else ""
  let refString :=
    if rangeRefString ≠ "" then refString ++ ":" ++ rangeRefString else refString
  wbString ++ sheetString ++ refString

/-- C3: at `row = 1`, `col = 1`, `ref = ABS_REF` the source produces
`$$1$1`, not the `$A$1` the spec (and the class docstring of
`ExcelRangeReference`) describe: line 225 of `lib/reference.py` prefixes
`$` to `row_string` where `col_string` was meant. -/
theorem buildSingleCellString_absRef_bug :
    buildSingleCellString 1 1 RefKind.absRef = "$$1$1" ∧
    buildSingleCellString 1 1 RefKind.absRef ≠ "$A$1" := by
  constructor
  · simp [buildSingleCellString, alphaColumn_one]
    decide
  · simp [buildSingleCellString, alphaColumn_one]
    decide

/-- C4: building the docstring's own example range (anchor `(1,1)` absolute,
opposite `(2,1)` relative, sheet `Sheet1`, workbook `Book1.xlsx`) yields
`[Book1.xlsx]'Sheet1'!$$1$1:A2`, not the documented
`[Book1.xlsx]'Sheet1'!$A$1:A2`. -/
theorem buildReferenceString_example_bug :
    buildReferenceString 1 1 RefKind.absRef (some "Sheet1") (some "Book1.xlsx")
      (some 2) (some 1) (some RefKind.relRef) = "[Book1.xlsx]'Sheet1'!$$1$1:A2" ∧
    buildReferenceString 1 1 RefKind.absRef (some "Sheet1") (some "Book1.xlsx")
      (some 2) (some 1) (some RefKind.relRef) ≠ "[Book1.xlsx]'Sheet1'!$A$1:A2" := by
  constructor
  · simp [buildReferenceString, buildSingleCellString, pyTruthyNat,
      alphaColumn_one]
    decide
  · simp [buildReferenceString, buildSingleCellString, pyTruthyNat,
      alphaColumn_one]
    decide

/-! ## Composite nodes (`lib/composite.py`, `lib/call.py`)

`_EXPRESSION_OPERATORS` maps dunder names to Excel operator characters. -/

inductive Op where
  | ltOp
  | leOp
  | eqOp
  | neOp
  | gtOp
  | geOp
  | addOp
  | subOp
  | mulOp
  | divOp
  | powOp
  | andOp
deriving DecidableEq

/-- The operator character of `_EXPRESSION_OPERATORS` for each dunder name. -/
def opSymbol : Op → String
  | .ltOp => "<"
  | .leOp => "<="
  | .eqOp => "="
  | .neOp => "<>"
  | .gtOp => ">"
  | .geOp => ">="
  | .addOp => "+"
  | .subOp => "-"
  | .mulOp => "*"
  | .divOp => "/"
  | .powOp => "^"
  | .andOp => "&"

/-- An entry of a `__requiredarguments__` / `__optionalarguments__` tuple:
an argument name, or the `...` open-endedness sentinel. -/
inductive FArg where
  | argname (s : String)
  | ellipsis
deriving DecidableEq

/-- An `ExcelFunction`/`ExcelFormula` subclass as the arity metaclass leaves
it: a name plus processed required/optional argument tuples. -/
structure Descriptor where
  name : String
  requiredArgs : List FArg
  optionalArgs : List FArg
deriving DecidableEq

def hasEllipsis (l : List FArg) : Bool :=
  l.any fun a => match a with
    | FArg.ellipsis => true
    | FArg.argname _ => false

/-- `is_openended()` of the arity metaclass. -/
def Descriptor.isOpenended (d : Descriptor) : Bool :=
  hasEllipsis d.requiredArgs || hasEllipsis d.optionalArgs

/-- A primitive Python value an `ExcelArgument` can store. -/
inductive PyPrim where
  | pynone
  | pybool (b : Bool)
  | pystr (s : String)
  | pyint (n : Int)
deriving DecidableEq

mutual
/-- A value stored by an `ExcelArgument`: a primitive, an `ExcelReference`
object (it is an `ExcelStringBuilder`, not an `ExcelComponent`, so
`_to_component` wraps it), or a one-element tuple (the priority sentinel,
which `_to_component` wraps whole). -/
inductive PyVal where
  | prim (v : PyPrim)
  | pyref (name : String)
  | tuple1 (x : PyObj)

/-- What the embedding lets a one-element tuple hold: a primitive or a
composite node. -/
inductive PyObj where
  | basic (v : PyPrim)
  | comp (n : XNode)

/-- A composite node: `ExcelArgument`, `ExcelExpression`,
`ExcelFunctionCall` or `ExcelFormulaCall`, with its `_priority` flag and
whether its `_owner` is set (`hasOwner = false` models `_owner is None`). -/
inductive XNode where
  | argNode (value : PyVal) (priority hasOwner : Bool)
  | exprNode (former latter : XNode) (op : Op) (priority hasOwner : Bool)
  | funcCall (caller : Descriptor) (args : List XNode) (priority hasOwner : Bool)
  | formCall (caller : Descriptor) (args : List XNode) (priority hasOwner : Bool)
end

def XNode.priority : XNode → Bool
  | .argNode _ p _ => p
  | .exprNode _ _ _ p _ => p
  | .funcCall _ _ p _ => p
  | .formCall _ _ p _ => p

def XNode.hasOwner : XNode → Bool
  | .argNode _ _ o => o
  | .exprNode _ _ _ _ o => o
  | .funcCall _ _ _ o => o
  | .formCall _ _ _ o => o

/-- `self._priority = True` on a node. -/
def setPriority : XNode → XNode
  | .argNode v _ o => .argNode v true o
  | .exprNode f l op _ o => .exprNode f l op true o
  | .funcCall d a _ o => .funcCall d a true o
  | .formCall d a _ o => .formCall d a true o

/-- `arg._owner = self`: the functional tree records only that an owner now
exists (the owner's identity is the concern of the construction-state model
below). -/
def setOwner : XNode → XNode
  | .argNode v p _ => .argNode v p true
  | .exprNode f l op p _ => .exprNode f l op p true
  | .funcCall d a p _ => .funcCall d a p true
  | .formCall d a p _ => .formCall d a p true

/-- The one failure the string builders can raise: `repr` of a call whose
argument is an `ExcelFunctionCall` evaluates `arg.function.name`, and the
caller class has no attribute `name`. -/
inductive PyErr where
  | attributeError
deriving DecidableEq

/-- Python's `sep.join(items)`. -/
def joinSep (sep : String) : List String → String
  | [] => ""
  | [s] => s
  | s :: rest => s ++ sep ++ joinSep sep rest

/-- `_prioritize_formula_string`: enclose the compiled string in `()` when
the object has priority. -/
def prioritizeFormulaString (priority : Bool) (s : String) : String :=
  if priority then "(" ++ s ++ ")" else s

/-- `_finalize_formula_string`: prepend `=` when the object is master
(`_owner is None`).  `ExcelCompositeType.__new__` applies it outside
`_prioritize_formula_string`. -/
def finalizeFormulaString (hasOwner : Bool) (s : String) : String :=
  if hasOwner then s else "=" ++ s

/-- Python `repr` of a primitive value (for the `str()` of a tuple). -/
def pyReprPrim : PyPrim → String
  | .pynone => "None"
  | .pybool b => if b then "True" else "False"
  | .pystr s => "'" ++ s ++ "'"
  | .pyint n => toString n

theorem sizeOf_take_le {α : Type} [SizeOf α] (l : List α) (n : Nat) :
    sizeOf (l.take n) ≤ sizeOf l := by
  induction l generalizing n with
  | nil => simp [List.take]
  | cons a rest ih =>
    cases n with
    | zero => simp; omega
    | succ m =>
      simp only [List.take, List.cons.sizeOf_spec]
      have := ih m
      omega

theorem sizeOf_drop_le {α : Type} [SizeOf α] (l : List α) (n : Nat) :
    sizeOf (l.drop n) ≤ sizeOf l := by
  induction l generalizing n with
  | nil => simp [List.drop]
  | cons a rest ih =>
    cases n with
    | zero => simp
    | succ m =>
      simp only [List.drop, List.cons.sizeOf_spec]
      have := ih m
      have ha : 0 ≤ sizeOf a := by omega
      omega

mutual
/-- The decorated `compile` of a composite node, as
`ExcelCompositeType.__new__` installs it: the class's own `compile` body,
wrapped by `_prioritize_formula_string`, wrapped by
`_finalize_formula_string`.  `str(node)` resolves to this same decorated
method. -/
def nodeCompile : XNode → Except PyErr String
  | .argNode v p o => do
    let s ← argCompile v
    pure (finalizeFormulaString o (prioritizeFormulaString p s))
  | .exprNode f l op p o => do
    let a ← nodeCompile f
    let b ← nodeCompile l
    pure (finalizeFormulaString o
      (prioritizeFormulaString p (a ++ opSymbol op ++ b)))
  | .funcCall d args p o => do
    let ss ← listCompile args
    pure (finalizeFormulaString o (prioritizeFormulaString p
      (d.name ++ "(" ++ joinSep ", " ss ++ ")")))
  | .formCall _ args p o => do
    let ss ← listCompile args
    pure (finalizeFormulaString o (prioritizeFormulaString p (joinSep "" ss)))
termination_by n => sizeOf n
decreasing_by all_goals (simp_wf; try omega)

def listCompile : List XNode → Except PyErr (List String)
  | [] => pure []
  | n :: rest => do
    let s ← nodeCompile n
    let ss ← listCompile rest
    pure (s :: ss)
termination_by l => sizeOf l
decreasing_by all_goals (simp_wf; try omega)

/-- `ExcelArgument.compile`: `""` quotes for `None` or the empty string,
uppercased booleans, quoted strings, `str(value)` otherwise (for a stored
`ExcelReference` this is its name; for a stored one-element tuple this is
Python's `str` of the tuple, built from the element's `repr`). -/
def argCompile : PyVal → Except PyErr String
  | .prim .pynone => pure "\"\""
  | .prim (.pybool b) => pure (if b then "TRUE" else "FALSE")
  | .prim (.pystr s) => pure (if s = "" then "\"\"" else "\"" ++ s ++ "\"")
  | .prim (.pyint n) => pure (toString n)
  | .pyref name => pure name
  | .tuple1 x => do
    let r ← pyReprObj x
    pure ("(" ++ r ++ ",)")
termination_by v => sizeOf v
decreasing_by all_goals (simp_wf; try omega)

def pyReprObj : PyObj → Except PyErr String
  | .basic v => pure (pyReprPrim v)
  | .comp n => nodeRepr n
termination_by x => sizeOf x
decreasing_by all_goals (simp_wf; try omega)

/-- Python `repr` of a composite node: `ExcelArgument.__repr__` is
`"Arg " + self.compile()`, `ExcelExpression.__repr__` joins the operand
strings around the operator character, and calls use `ExcelCall.__repr__`,
which splits the arguments with `required_arguments` (the first
`len(caller.required_arguments)`) and `optional_arguments` (which, as
written in the source, drops `len(caller.optional_arguments)` arguments),
then joins both parts with `", "` unconditionally. -/
def nodeRepr : XNode → Except PyErr String
  | .argNode v p o => do
    let s ← argCompile v
    pure ("Arg " ++ finalizeFormulaString o (prioritizeFormulaString p s))
  | .exprNode f l op _ _ => do
    let a ← nodeCompile f
    let b ← nodeCompile l
    pure ("Expression (" ++ a ++ opSymbol op ++ b ++ ")")
  | .funcCall d args _ _ => do
    let reqStrs ← reprArgList (args.take d.requiredArgs.length)
    let optStrs ← reprArgList (args.drop d.optionalArgs.length)
    let reqString := joinSep ", " reqStrs
    let optString := joinSep ", " optStrs
    let optString :=
      if optString ≠ "" ∨ d.isOpenended then "[" ++ optString ++ "]"
      else optString
    pure ("'" ++ d.name ++ "' (" ++ reqString ++ ", " ++ optString ++ ")")
  | .formCall d args _ _ => do
    let reqStrs ← reprArgList (args.take d.requiredArgs.length)
    let optStrs ← reprArgList (args.drop d.optionalArgs.length)
    let reqString := joinSep ", " reqStrs
    let optString := joinSep ", " optStrs
    let optString :=
      if optString ≠ "" ∨ d.isOpenended then "[" ++ optString ++ "]"
      else optString
    pure ("'" ++ d.name ++ "' (" ++ reqString ++ ", " ++ optString ++ ")")
termination_by n => sizeOf n
decreasing_by
  all_goals simp_wf
  all_goals try omega
  all_goals
    (rename_i caller args o
     have h1 := sizeOf_take_le args caller.requiredArgs.length
     have h2 := sizeOf_drop_le args caller.optionalArgs.length
     omega)

/-- `_repr_arg` over a list of arguments: an `ExcelFunctionCall` argument
evaluates `arg.function.name`, which raises `AttributeError` (the caller
class defines no `name` attribute); every other object has `__repr__`. -/
def reprArgList : List XNode → Except PyErr (List String)
  | [] => pure []
  | a :: rest => do
    let s ← match a with
      | .funcCall _ _ _ _ => Except.error PyErr.attributeError
      | .argNode v p o => nodeRepr (XNode.argNode v p o)
      | .exprNode f l op p o => nodeRepr (XNode.exprNode f l op p o)
      | .formCall dd aa p o => nodeRepr (XNode.formCall dd aa p o)
    let ss ← reprArgList rest
    pure (s :: ss)
termination_by l => sizeOf l
decreasing_by all_goals (simp_wf; try omega)
end

/-! ## Argument coercion and node construction -/

/-- A value as the user passes it to an expression or call: a raw Python
value (primitive, reference object or one-element tuple) or an existing
composite node. -/
inductive Arg where
  | raw (v : PyVal)
  | node (n : XNode)

/-- `_to_component(arg)`: return `arg` itself when it is already an
`ExcelComponent`, else wrap it in a fresh `ExcelArgument` (owner unset,
priority unset). -/
def toComponent : Arg → XNode
  | .raw v => .argNode v false false
  | .node n => n

/-- `_format_argument(arg)`: a one-element tuple is cast by `_to_component`
(which wraps the tuple itself in an `ExcelArgument`) and that wrapper's
`_priority` is set; everything else is cast by `_to_component` alone.  The
`TypeError` branch is unreachable: `_to_component` always yields an
`ExcelComponent`. -/
def formatArgument : Arg → XNode
  | .raw (.tuple1 x) => setPriority (toComponent (.raw (.tuple1 x)))
  | a => toComponent a

/-- `ExcelExpression.__init__(former, latter, operator)`: format each
operand, set its `_owner` to the new expression; the expression itself
starts with no owner and no priority. -/
def mkExpression (former latter : Arg) (op : Op) : XNode :=
  .exprNode (setOwner (formatArgument former)) (setOwner (formatArgument latter))
    op false false

/-- `ExcelCall.__init__(caller, args)` for an `ExcelFunctionCall`: format
every argument and set each one's `_owner` to the new call. -/
def mkFunctionCall (caller : Descriptor) (args : List Arg) : XNode :=
  .funcCall caller (args.map fun a => setOwner (formatArgument a)) false false

/-! ## The arity contract (`lib/argument.py`, `ExcelArgumentHandler.__new__`) -/

/-- The two arity failures (`TypeError`s in the source; the spec names them
`TooFewArgumentsError` and `TooManyArgumentsError`).  The too-few error
message names the missing required slots `req_args[arg_count:]`. -/
inductive ArityError where
  | tooFew (missing : List FArg)
  | tooMany
deriving DecidableEq

/-- `ExcelArgumentHandler.__new__`: `req_count` is `arg_count` when `...`
is among the required slots, else their number (same for `opt_count`); too
few when `req_count` is truthy and `arg_count < req_count`, too many when
`arg_count > req_count + opt_count`. -/
def checkArity (reqArgs optArgs : List FArg) (argCount : Nat) :
    Except ArityError Unit :=
  let reqCount := if hasEllipsis reqArgs then argCount else reqArgs.length
  let optCount := if hasEllipsis optArgs then argCount else optArgs.length
  if reqCount ≠ 0 ∧ argCount < reqCount then
    Except.error (ArityError.tooFew (reqArgs.drop argCount))
  else if argCount > reqCount + optCount then
    Except.error ArityError.tooMany
  else Except.ok ()

/-- Instantiating an `ExcelFunction` subclass: `__new__` runs the arity
check and only then `_handle_arguments` builds the `ExcelFunctionCall`, so
an arity error is raised before any call object exists. -/
def constructFunctionCall (caller : Descriptor) (args : List Arg) :
    Except ArityError XNode :=
  match checkArity caller.requiredArgs caller.optionalArgs args.length with
  | Except.error e => Except.error e
  | Except.ok _ => Except.ok (mkFunctionCall caller args)

/-- C5: a descriptor with required `(a, b)` and optional `(c,)` and no
sentinel anywhere rejects 1 supplied argument with the too-few error naming
the missing required slots, accepts 2 or 3, and rejects 4 with the too-many
error; the errors arise in `__new__`, before any call object is built. -/
theorem arity_two_required_one_optional (nm a b c : String)
    (caller : Descriptor)
    (hc : caller = ⟨nm, [FArg.argname a, FArg.argname b], [FArg.argname c]⟩)
    (args1 args2 args3 args4 : List Arg)
    (h1 : args1.length = 1) (h2 : args2.length = 2)
    (h3 : args3.length = 3) (h4 : args4.length = 4) :
    constructFunctionCall caller args1 =
      Except.error (ArityError.tooFew [FArg.argname b]) ∧
    (∃ node2, constructFunctionCall caller args2 = Except.ok node2) ∧
    (∃ node3, constructFunctionCall caller args3 = Except.ok node3) ∧
    constructFunctionCall caller args4 = Except.error ArityError.tooMany := by
  subst hc
  refine ⟨?_,
    ⟨mkFunctionCall ⟨nm, [FArg.argname a, FArg.argname b], [FArg.argname c]⟩ args2, ?_⟩,
    ⟨mkFunctionCall ⟨nm, [FArg.argname a, FArg.argname b], [FArg.argname c]⟩ args3, ?_⟩,
    ?_⟩
  · simp [constructFunctionCall, checkArity, hasEllipsis, h1]
  · simp [constructFunctionCall, checkArity, hasEllipsis, h2]
  · simp [constructFunctionCall, checkArity, hasEllipsis, h3]
  · simp [constructFunctionCall, checkArity, hasEllipsis, h4]

/-- Witness: the arity contract at a concrete descriptor and argument
lists of lengths 1 through 4. -/
theorem arity_two_required_one_optional_witness :
    constructFunctionCall
        ⟨"F", [FArg.argname "x", FArg.argname "y"], [FArg.argname "z"]⟩
        [Arg.raw (PyVal.prim PyPrim.pynone)] =
      Except.error (ArityError.tooFew [FArg.argname "y"]) ∧
    (∃ node2, constructFunctionCall
        ⟨"F", [FArg.argname "x", FArg.argname "y"], [FArg.argname "z"]⟩
        [Arg.raw (PyVal.prim PyPrim.pynone),
         Arg.raw (PyVal.prim PyPrim.pynone)] = Except.ok node2) ∧
    (∃ node3, constructFunctionCall
        ⟨"F", [FArg.argname "x", FArg.argname "y"], [FArg.argname "z"]⟩
        [Arg.raw (PyVal.prim PyPrim.pynone),
         Arg.raw (PyVal.prim PyPrim.pynone),
         Arg.raw (PyVal.prim PyPrim.pynone)] = Except.ok node3) ∧
    constructFunctionCall
        ⟨"F", [FArg.argname "x", FArg.argname "y"], [FArg.argname "z"]⟩
        [Arg.raw (PyVal.prim PyPrim.pynone),
         Arg.raw (PyVal.prim PyPrim.pynone),
         Arg.raw (PyVal.prim PyPrim.pynone),
         Arg.raw (PyVal.prim PyPrim.pynone)] =
      Except.error ArityError.tooMany :=
  arity_two_required_one_optional "F" "x" "y" "z" _ rfl _ _ _ _ rfl rfl rfl rfl

/-- C10: `_to_component` / `_format_argument` return an already-composite
bare argument unchanged (same node, priority untouched), are idempotent on
composite nodes, and wrap each non-composite bare raw value in exactly one
fresh `ExcelArgument`. -/
theorem formatArgument_bare_node_identity :
    (∀ n : XNode, formatArgument (Arg.node n) = n) ∧
    (∀ n : XNode, (formatArgument (Arg.node n)).priority = n.priority) ∧
    (∀ a : Arg, formatArgument (Arg.node (formatArgument a)) = formatArgument a) ∧
    (∀ v : PyPrim, formatArgument (Arg.raw (PyVal.prim v)) =
      XNode.argNode (PyVal.prim v) false false) ∧
    (∀ s : String, formatArgument (Arg.raw (PyVal.pyref s)) =
      XNode.argNode (PyVal.pyref s) false false) :=
  ⟨fun _ => rfl, fun _ => rfl, fun _ => rfl, fun _ => rfl, fun _ => rfl⟩

/-- C9: a value wrapped in a one-element tuple comes out of
`_format_argument` with its `_priority` flag set, and its compiled text
(once the node is owned, as every operand or call argument is) is the
tuple text enclosed in priority parentheses; a bare raw value comes out
without priority. -/
theorem tuple_sentinel_parenthesizes :
    (∀ x : PyObj, (formatArgument (Arg.raw (PyVal.tuple1 x))).priority = true) ∧
    (∀ x : PyObj,
      nodeCompile (setOwner (formatArgument (Arg.raw (PyVal.tuple1 x)))) =
        (argCompile (PyVal.tuple1 x)).map fun s => "(" ++ s ++ ")") ∧
    (∀ v : PyPrim, (formatArgument (Arg.raw (PyVal.prim v))).priority = false) := by
  refine ⟨fun x => rfl, fun x => ?_, fun v => rfl⟩
  cases hx : argCompile (PyVal.tuple1 x) with
  | error e =>
    simp [formatArgument, toComponent, setPriority, setOwner, nodeCompile, hx,
      Except.map]
  | ok s =>
    simp [formatArgument, toComponent, setPriority, setOwner, nodeCompile, hx,
      Except.map, finalizeFormulaString, prioritizeFormulaString]

/-! ## Expression evaluation (`lib/composite.py`, `ExcelExpression.get_value`) -/

/-- A runtime value: a primitive, an `ExcelReference` object, a composite
object, or a one-element tuple (as produced by the source's trailing
comma). -/
inductive RVal where
  | rprim (v : PyPrim)
  | rref (name : String)
  | rnode (n : XNode)
  | rtup (x : RVal)

/-- An evaluation outcome: a value, a raised `TypeError`, or a result that
depends on an externally supplied per-function closure (`ExcelCall.get_value`
returns `caller.get_value(self)`; those closures are outside the core the
spec models, its §1). -/
inductive EvalOut where
  | val (v : RVal)
  | typeError
  | externalCall (name : String)

/-- `ExcelArgument.get_value` returns the stored value unchanged. -/
def pyValToRVal : PyVal → RVal
  | .prim v => .rprim v
  | .pyref name => .rref name
  | .tuple1 (.basic v) => .rtup (.rprim v)
  | .tuple1 (.comp n) => .rtup (.rnode n)

/-- Python's `sep.join(items)` at runtime: it raises `TypeError` unless
every item is a `str`. -/
def pyStrJoinVals (sep : String) (items : List RVal) : EvalOut :=
  if items.all fun v => match v with
      | RVal.rprim (PyPrim.pystr _) => true
      | _ => false
  then EvalOut.val (RVal.rprim (PyPrim.pystr (joinSep sep (items.map fun v =>
    match v with
    | RVal.rprim (PyPrim.pystr s) => s
    | _ => ""))))
  else EvalOut.typeError

/-- `getattr(former_value, self._operator)(former_value, latter_value)` for
the non-overridden operators: the attribute lookup yields a bound method,
which accepts exactly one further positional argument, so the source's call
with two arguments raises `TypeError` before any operator semantics run. -/
def boundDunderCallTwo (_receiver : RVal) (_op : Op) (_x _y : RVal) : EvalOut :=
  EvalOut.typeError

/-- `ExcelExpression.get_value`, as written: line 366 of `lib/composite.py`
ends in a comma, so `former_value` is the ONE-ELEMENT TUPLE holding the
former operand's value.  For `__and__` the override lambda runs
`"".join((former_value, latter_value))`; for every other operator the bound
dunder method of `former_value` is called with two arguments. -/
def exprGetValue (formerVal latterVal : RVal) (op : Op) : EvalOut :=
  let formerValue := RVal.rtup formerVal
  let latterValue := latterVal
  if op = Op.andOp then
    pyStrJoinVals "" [formerValue, latterValue]
  else
    boundDunderCallTwo formerValue op formerValue latterValue

/-- `get_value` over the tree: arguments return their stored value,
expressions evaluate both operands and apply `exprGetValue`, calls defer to
the caller class's externally supplied closure. -/
def getValue : XNode → EvalOut
  | .argNode v _ _ => EvalOut.val (pyValToRVal v)
  | .exprNode f l op _ _ =>
    match getValue f with
    | EvalOut.val fv =>
      match getValue l with
      | EvalOut.val lv => exprGetValue fv lv op
      | e => e
    | e => e
  | .funcCall d _ _ _ => EvalOut.externalCall d.name
  | .formCall d _ _ _ => EvalOut.externalCall d.name

/-- C6: evaluating the concatenation expression over the string literals
"a" and "b" raises `TypeError` instead of returning "ab": `former_value`
is `("a",)` (the trailing comma on line 366), so `"".join` receives a tuple
item.  Every other operator fails too, the bound method getting two
arguments. -/
theorem exprGetValue_concat_bug :
    getValue (mkExpression (Arg.raw (PyVal.prim (PyPrim.pystr "a")))
        (Arg.raw (PyVal.prim (PyPrim.pystr "b"))) Op.andOp) =
      EvalOut.typeError ∧
    getValue (mkExpression (Arg.raw (PyVal.prim (PyPrim.pystr "a")))
        (Arg.raw (PyVal.prim (PyPrim.pystr "b"))) Op.andOp) ≠
      EvalOut.val (RVal.rprim (PyPrim.pystr "ab")) := by
  constructor
  · rfl
  · intro h
    simp [mkExpression, formatArgument, toComponent, setOwner, getValue,
      pyValToRVal, exprGetValue, pyStrJoinVals] at h

/-! ## The end-to-end conditional render (C8)

The builtin `IF` descriptor: required `("logical_test", "value_if_true")`,
optional `("value_if_false",)` (`lib/builtin/_function.py`). -/

def ifDescriptor : Descriptor :=
  ⟨"IF", [FArg.argname "logical_test", FArg.argname "value_if_true"],
    [FArg.argname "value_if_false"]⟩

/-- The scenario's arguments: the equality expression `A1 = ""` (the
reference wrapped in an `ExcelArgument`, compare `ExcelReference` in
`lib/reference.py`), an empty-string literal, and the reference `B1`. -/
def ifScenarioArgs : List Arg :=
  [Arg.node (mkExpression (Arg.raw (PyVal.pyref "A1"))
      (Arg.raw (PyVal.prim (PyPrim.pystr ""))) Op.eqOp),
   Arg.raw (PyVal.prim (PyPrim.pystr "")),
   Arg.raw (PyVal.pyref "B1")]

/-- C8 counterexample: the call does NOT render as `=IF(A1="","",B1)` —
`ExcelFunctionCall.compile` joins arguments with `", "` (comma AND space,
`lib/call.py` line 178). -/
theorem ifScenario_render_not_spaceless :
    Except.map nodeCompile (constructFunctionCall ifDescriptor ifScenarioArgs) ≠
      Except.ok (Except.ok "=IF(A1=\"\",\"\",B1)") := by
  simp [ifDescriptor, ifScenarioArgs, constructFunctionCall, checkArity,
    hasEllipsis, mkFunctionCall, mkExpression, formatArgument, toComponent,
    setOwner, nodeCompile, listCompile, argCompile, joinSep,
    finalizeFormulaString, prioritizeFormulaString, opSymbol, Except.map,
    bind, Except.bind, pure, Except.pure]

/-- C8 amended: the call renders as `=IF(A1="", "", B1)`, the arguments
joined by comma and space. -/
theorem ifScenario_render :
    Except.map nodeCompile (constructFunctionCall ifDescriptor ifScenarioArgs) =
      Except.ok (Except.ok "=IF(A1=\"\", \"\", B1)") := by
  simp [ifDescriptor, ifScenarioArgs, constructFunctionCall, checkArity,
    hasEllipsis, mkFunctionCall, mkExpression, formatArgument, toComponent,
    setOwner, nodeCompile, listCompile, argCompile, joinSep,
    finalizeFormulaString, prioritizeFormulaString, opSymbol, Except.map,
    bind, Except.bind, pure, Except.pure]

/-! ## The `=` finalisation (C1) -/

/-- The number of `=` characters (code 61) in a string. -/
def countEq (s : String) : Nat := s.data.count (Char.ofNat 61)

/-- Whether a string is free of `=` characters. -/
def noEq (s : String) : Bool := countEq s == 0

def renderSafeVal : PyVal → Bool
  | .prim PyPrim.pynone => true
  | .prim (PyPrim.pybool _) => true
  | .prim (PyPrim.pystr s) => noEq s
  | .prim (PyPrim.pyint n) => noEq (toString n)
  | .pyref name => noEq name
  | .tuple1 (.basic v) => noEq (pyReprPrim v)
  | .tuple1 (.comp _) => false

mutual
/-- The domain of the amended C1 statement: every strict sub-node owned, an
operator character free of `=` (this excludes `=`, `<=` and `>=`), no `=`
character in leaf texts or descriptor names, and no composite value inside
a priority tuple (the `repr` of an unowned composite inside a tuple replays
the master `compile` and can emit an `=` of its own). -/
def renderSafe : XNode → Bool
  | .argNode v _ _ => renderSafeVal v
  | .exprNode f l op _ _ =>
    noEq (opSymbol op) && f.hasOwner && renderSafe f && l.hasOwner && renderSafe l
  | .funcCall d args _ _ => noEq d.name && renderSafeList args
  | .formCall d args _ _ => noEq d.name && renderSafeList args

def renderSafeList : List XNode → Bool
  | [] => true
  | n :: rest => n.hasOwner && renderSafe n && renderSafeList rest
end

theorem countEq_append (s t : String) :
    countEq (s ++ t) = countEq s + countEq t := by
  simp [countEq, String.data_append, List.count_append]

theorem countEq_of_noEq (s : String) (h : noEq s = true) : countEq s = 0 := by
  simpa [noEq] using h

theorem countEq_prioritize (p : Bool) (t : String) :
    countEq (prioritizeFormulaString p t) = countEq t := by
  cases p
  · simp [prioritizeFormulaString]
  · have h1 : countEq "(" = 0 := by decide
    have h2 : countEq ")" = 0 := by decide
    simp [prioritizeFormulaString, countEq_append, h1, h2]

theorem countEq_joinSep (sep : String) (hsep : countEq sep = 0) :
    ∀ l : List String, (∀ s ∈ l, countEq s = 0) → countEq (joinSep sep l) = 0 := by
  intro l
  induction l with
  | nil => intro _; simp [joinSep, countEq]
  | cons s rest ih =>
    intro h
    cases rest with
    | nil => simpa [joinSep] using h s (by simp)
    | cons t ts =>
      have h1 := h s (by simp)
      have h2 : ∀ u ∈ t :: ts, countEq u = 0 := fun u hu => h u (by simp [hu])
      simp [joinSep, countEq_append, h1, hsep]
      simpa [joinSep] using ih h2

theorem countEq_argCompile (v : PyVal) (h : renderSafeVal v = true) :
    ∀ t, argCompile v = Except.ok t → countEq t = 0 := by
  cases v with
  | prim pv =>
    cases pv with
    | pynone =>
      intro t ht
      simp [argCompile, pure, Except.pure] at ht
      subst ht; decide
    | pybool b =>
      intro t ht
      cases b <;> simp [argCompile, pure, Except.pure] at ht <;> subst ht <;> decide
    | pystr s0 =>
      intro t ht
      by_cases hs : s0 = "" <;> simp [argCompile, pure, Except.pure, hs] at ht
      · subst ht; decide
      · subst ht
        have h0 : countEq "\"" = 0 := by decide
        have h1 : countEq s0 = 0 := countEq_of_noEq s0 (by simpa [renderSafeVal] using h)
        simp [countEq_append, h0, h1]
    | pyint n0 =>
      intro t ht
      simp [argCompile, pure, Except.pure] at ht
      subst ht
      exact countEq_of_noEq _ (by simpa [renderSafeVal] using h)
  | pyref nm =>
    intro t ht
    simp [argCompile, pure, Except.pure] at ht
    subst ht
    exact countEq_of_noEq _ (by simpa [renderSafeVal] using h)
  | tuple1 x =>
    cases x with
    | basic v0 =>
      intro t ht
      simp [argCompile, pyReprObj, bind, Except.bind, pure, Except.pure] at ht
      subst ht
      have h0 : countEq "(" = 0 := by decide
      have h1 : countEq ",)" = 0 := by decide
      have h2 : countEq (pyReprPrim v0) = 0 :=
        countEq_of_noEq _ (by simpa [renderSafeVal] using h)
      simp [countEq_append, h0, h1, h2]
    | comp n0 => simp [renderSafeVal] at h

theorem countEq_compile_aux (k : Nat) :
    (∀ n : XNode, sizeOf n < k → renderSafe n = true → n.hasOwner = true →
      ∀ s, nodeCompile n = Except.ok s → countEq s = 0) ∧
    (∀ l : List XNode, sizeOf l < k → renderSafeList l = true →
      ∀ ss, listCompile l = Except.ok ss → ∀ s ∈ ss, countEq s = 0) := by
  induction k using Nat.strong_induction_on with
  | _ k ih =>
    constructor
    · intro n hk hsafe howner s hcomp
      cases n with
      | argNode v p o =>
        simp [XNode.hasOwner] at howner
        subst howner
        cases hv : argCompile v with
        | error e => simp [nodeCompile, hv, bind, Except.bind] at hcomp
        | ok t =>
          simp [nodeCompile, hv, bind, Except.bind, pure, Except.pure,
            finalizeFormulaString] at hcomp
          subst hcomp
          rw [countEq_prioritize]
          exact countEq_argCompile v (by simpa [renderSafe] using hsafe) t hv
      | exprNode f l op p o =>
        simp [XNode.hasOwner] at howner
        subst howner
        simp [renderSafe] at hsafe
        obtain ⟨⟨⟨⟨hop, hfo⟩, hfs⟩, hlo⟩, hls⟩ := hsafe
        cases hf : nodeCompile f with
        | error e => simp [nodeCompile, hf, bind, Except.bind] at hcomp
        | ok a =>
          cases hl : nodeCompile l with
          | error e => simp [nodeCompile, hf, hl, bind, Except.bind] at hcomp
          | ok b =>
            simp [nodeCompile, hf, hl, bind, Except.bind, pure, Except.pure,
              finalizeFormulaString] at hcomp
            subst hcomp
            rw [countEq_prioritize]
            have hfsz : sizeOf f < sizeOf (XNode.exprNode f l op p true) := by
              simp; omega
            have hlsz : sizeOf l < sizeOf (XNode.exprNode f l op p true) := by
              simp; omega
            have ha := (ih _ hk).1 f hfsz hfs hfo a hf
            have hb := (ih _ hk).1 l hlsz hls hlo b hl
            have hopc : countEq (opSymbol op) = 0 := countEq_of_noEq _ hop
            simp [countEq_append, ha, hb, hopc]
      | funcCall d args p o =>
        simp [XNode.hasOwner] at howner
        subst howner
        simp [renderSafe] at hsafe
        obtain ⟨hname, hargs⟩ := hsafe
        cases hl : listCompile args with
        | error e => simp [nodeCompile, hl, bind, Except.bind] at hcomp
        | ok ss =>
          simp [nodeCompile, hl, bind, Except.bind, pure, Except.pure,
            finalizeFormulaString] at hcomp
          subst hcomp
          rw [countEq_prioritize]
          have hssz : sizeOf args < sizeOf (XNode.funcCall d args p true) := by
            simp; omega
          have hparts := (ih _ hk).2 args hssz hargs ss hl
          have hn : countEq d.name = 0 := countEq_of_noEq _ hname
          have hj : countEq (joinSep ", " ss) = 0 :=
            countEq_joinSep ", " (by decide) ss hparts
          have hpl : countEq "(" = 0 := by decide
          have hpr : countEq ")" = 0 := by decide
          simp [countEq_append, hn, hj, hpl, hpr]
      | formCall d args p o =>
        simp [XNode.hasOwner] at howner
        subst howner
        simp [renderSafe] at hsafe
        obtain ⟨hname, hargs⟩ := hsafe
        cases hl : listCompile args with
        | error e => simp [nodeCompile, hl, bind, Except.bind] at hcomp
        | ok ss =>
          simp [nodeCompile, hl, bind, Except.bind, pure, Except.pure,
            finalizeFormulaString] at hcomp
          subst hcomp
          rw [countEq_prioritize]
          have hssz : sizeOf args < sizeOf (XNode.formCall d args p true) := by
            simp; omega
          have hparts := (ih _ hk).2 args hssz hargs ss hl
          exact countEq_joinSep "" (by decide) ss hparts
    · intro l hk hsafe ss hcomp s hs
      cases l with
      | nil =>
        simp [listCompile, pure, Except.pure] at hcomp
        subst hcomp
        simp at hs
      | cons n rest =>
        simp [renderSafeList] at hsafe
        obtain ⟨⟨hno, hns⟩, hrest⟩ := hsafe
        cases hn : nodeCompile n with
        | error e => simp [listCompile, hn, bind, Except.bind] at hcomp
        | ok s0 =>
          cases hr : listCompile rest with
          | error e => simp [listCompile, hn, hr, bind, Except.bind] at hcomp
          | ok ss0 =>
            simp [listCompile, hn, hr, bind, Except.bind, pure,
              Except.pure] at hcomp
            subst hcomp
            simp at hs
            have hnsz : sizeOf n < sizeOf (n :: rest) := by
              simp only [List.cons.sizeOf_spec]; omega
            have hrsz : sizeOf rest < sizeOf (n :: rest) := by
              simp only [List.cons.sizeOf_spec]; omega
            rcases hs with hs | hs
            · subst hs
              exact (ih _ hk).1 n hnsz hns hno _ hn
            · exact (ih _ hk).2 rest hrsz hrest ss0 hr s hs

theorem countEq_compile_owned (n : XNode) (hsafe : renderSafe n = true)
    (howner : n.hasOwner = true) (s : String)
    (hcomp : nodeCompile n = Except.ok s) : countEq s = 0 :=
  (countEq_compile_aux (sizeOf n + 1)).1 n (by omega) hsafe howner s hcomp

theorem hasOwner_setOwner (n : XNode) : (setOwner n).hasOwner = true := by
  cases n <;> rfl

theorem renderSafe_setOwner (n : XNode) : renderSafe (setOwner n) = renderSafe n := by
  cases n <;> simp [setOwner, renderSafe]

/-- Compiling an unowned node is compiling the same node owned, with `=`
prepended by `_finalize_formula_string`. -/
theorem nodeCompile_unowned (n : XNode) (h : n.hasOwner = false) :
    nodeCompile n = (nodeCompile (setOwner n)).map fun t => "=" ++ t := by
  cases n with
  | argNode v p o =>
    simp [XNode.hasOwner] at h
    subst h
    cases hv : argCompile v <;>
      simp [nodeCompile, setOwner, hv, bind, Except.bind, pure, Except.pure,
        Except.map, finalizeFormulaString]
  | exprNode f l op p o =>
    simp [XNode.hasOwner] at h
    subst h
    cases hf : nodeCompile f <;> cases hl : nodeCompile l <;>
      simp [nodeCompile, setOwner, hf, hl, bind, Except.bind, pure,
        Except.pure, Except.map, finalizeFormulaString]
  | funcCall d args p o =>
    simp [XNode.hasOwner] at h
    subst h
    cases hl : listCompile args <;>
      simp [nodeCompile, setOwner, hl, bind, Except.bind, pure, Except.pure,
        Except.map, finalizeFormulaString]
  | formCall d args p o =>
    simp [XNode.hasOwner] at h
    subst h
    cases hl : listCompile args <;>
      simp [nodeCompile, setOwner, hl, bind, Except.bind, pure, Except.pure,
        Except.map, finalizeFormulaString]

/-- C1 counterexample: the master equality expression `A1 = ""` renders as
`=A1=""`, whose text holds TWO `=` characters — the finalisation `=` at the
head plus the equality operator's own character — so "the rendered text of
any tree contains exactly one `=`" is false. -/
theorem master_equality_two_equals :
    nodeCompile (mkExpression (Arg.raw (PyVal.pyref "A1"))
        (Arg.raw (PyVal.prim (PyPrim.pystr ""))) Op.eqOp) =
      Except.ok "=A1=\"\"" ∧
    countEq "=A1=\"\"" = 2 := by
  constructor
  · simp [mkExpression, formatArgument, toComponent, setOwner, nodeCompile,
      argCompile, bind, Except.bind, pure, Except.pure, finalizeFormulaString,
      prioritizeFormulaString, opSymbol]
  · decide

/-- C1 amended: a node with an owner compiles with no `=` contributed by
the finalisation — over the `renderSafe` domain its text holds no `=` at
all — and a node with no owner compiles to `=` prepended to an `=`-free
body, so the whole text holds exactly one `=`, at its head.  Outside that
domain the text may hold further `=` characters: from the `=`, `<=`, `>=`
operator characters, from leaf text, or from the tuple `repr` of an unowned
composite. -/
theorem compile_eq_prefix_master :
    (∀ (n : XNode) (s : String), renderSafe n = true → n.hasOwner = true →
      nodeCompile n = Except.ok s → countEq s = 0) ∧
    (∀ (n : XNode) (s : String), renderSafe n = true → n.hasOwner = false →
      nodeCompile n = Except.ok s →
      ∃ t, s = "=" ++ t ∧ countEq t = 0 ∧ countEq s = 1) := by
  constructor
  · exact fun n s hs ho hc => countEq_compile_owned n hs ho s hc
  · intro n s hs ho hc
    rw [nodeCompile_unowned n ho] at hc
    cases ht : nodeCompile (setOwner n) with
    | error e => rw [ht] at hc; simp [Except.map] at hc
    | ok t =>
      rw [ht] at hc
      simp [Except.map] at hc
      subst hc
      have h0 : countEq t = 0 :=
        countEq_compile_owned (setOwner n) (by rwa [renderSafe_setOwner])
          (hasOwner_setOwner n) t ht
      refine ⟨t, rfl, h0, ?_⟩
      have h1 : countEq "=" = 1 := by decide
      simp [countEq_append, h0, h1]

/-- Witness: the master expression `A1 < B1` renders as `=A1<B1`, one `=`
at its head. -/
theorem compile_eq_prefix_master_witness :
    ∃ t, "=A1<B1" = "=" ++ t ∧ countEq t = 0 ∧ countEq "=A1<B1" = 1 :=
  compile_eq_prefix_master.2
    (mkExpression (Arg.raw (PyVal.pyref "A1")) (Arg.raw (PyVal.pyref "B1"))
      Op.ltOp)
    "=A1<B1"
    (by simp [mkExpression, formatArgument, toComponent, setOwner, renderSafe,
      renderSafeVal, noEq, countEq, XNode.hasOwner, opSymbol])
    rfl
    (by simp [mkExpression, formatArgument, toComponent, setOwner, nodeCompile,
      argCompile, bind, Except.bind, pure, Except.pure, finalizeFormulaString,
      prioritizeFormulaString, opSymbol])

/-! ## Owner assignment over a construction history (C7)

The functional tree above records only whether an owner exists.  To settle
the once-only/acyclicity claim we replay the owner WRITES of
`ExcelExpression.__init__` (`self._former._owner = self`,
`self._latter._owner = self`) and `ExcelCall.__init__` (the loop
`for arg in self._arguments: arg._owner = self`) against a heap of nodes
numbered in creation order. -/

/-- One construction step, naming existing nodes by creation index: create a
fresh component (its `_owner` is `None`), create an expression over two
existing operands, or create a call over a list of existing arguments
(operands and arguments given as raw values are fresh nodes created just
before, covered by `newArg`). -/
inductive BuildStep where
  | newArg
  | newExpr (former latter : Nat)
  | newCall (args : List Nat)

/-- The construction heap: how many nodes exist, and each node's `_owner`
(`none` = `_owner is None`). -/
structure BuildState where
  len : Nat
  owner : Nat → Option Nat

def emptyState : BuildState := ⟨0, fun _ => none⟩

/-- `child._owner = parent`: an unconditional write, exactly as in the
source — whatever the field held before is overwritten. -/
def writeOwner (s : BuildState) (child parent : Nat) : BuildState :=
  ⟨s.len, fun i => if i = child then some parent else s.owner i⟩

def applyStep (s : BuildState) : BuildStep → BuildState
  | .newArg => ⟨s.len + 1, s.owner⟩
  | .newExpr f l =>
    let n := s.len
    let s1 := writeOwner s f n
    let s2 := writeOwner s1 l n
    ⟨s2.len + 1, s2.owner⟩
  | .newCall args =>
    let n := s.len
    let s1 := args.foldl (fun acc i => writeOwner acc i n) s
    ⟨s1.len + 1, s1.owner⟩

/-- Steps are listed oldest first; `runSteps` folds them over the empty
heap. -/
def runSteps (steps : List BuildStep) : BuildState :=
  steps.foldl applyStep emptyState

/-- A step may only reference nodes that already exist. -/
def stepOk (n : Nat) : BuildStep → Bool
  | .newArg => true
  | .newExpr f l => f < n && l < n
  | .newCall args => args.all fun i => i < n

def validFrom (n : Nat) : List BuildStep → Bool
  | [] => true
  | st :: rest => stepOk n st && validFrom (n + 1) rest

/-- How many times a step writes the `_owner` field of node `i` (an
expression writes each operand once, a call writes once per argument
occurrence). -/
def stepWrites (i : Nat) : BuildStep → Nat
  | .newArg => 0
  | .newExpr f l => (if f = i then 1 else 0) + (if l = i then 1 else 0)
  | .newCall args => args.countP fun j => j = i

def ownerWrites (steps : List BuildStep) (i : Nat) : Nat :=
  (steps.map (stepWrites i)).sum

/-- C7 counterexample: passing node 0 as an operand of expression 2 and
later of expression 4 writes node 0's `_owner` twice, and the second write
replaces the first — the owner reference is NOT assigned exactly once. -/
theorem owner_reassigned_on_reuse :
    ownerWrites [BuildStep.newArg, BuildStep.newArg, BuildStep.newExpr 0 1,
      BuildStep.newArg, BuildStep.newExpr 0 3] 0 = 2 ∧
    (runSteps [BuildStep.newArg, BuildStep.newArg,
      BuildStep.newExpr 0 1]).owner 0 = some 2 ∧
    (runSteps [BuildStep.newArg, BuildStep.newArg, BuildStep.newExpr 0 1,
      BuildStep.newArg, BuildStep.newExpr 0 3]).owner 0 = some 4 ∧
    validFrom 0 [BuildStep.newArg, BuildStep.newArg, BuildStep.newExpr 0 1,
      BuildStep.newArg, BuildStep.newExpr 0 3] = true := by
  refine ⟨by decide, by decide, by decide, by decide⟩

theorem foldl_write_len (n : Nat) (args : List Nat) (s : BuildState) :
    (args.foldl (fun acc i => writeOwner acc i n) s).len = s.len := by
  induction args generalizing s with
  | nil => rfl
  | cons a rest ih =>
    simp only [List.foldl]
    rw [ih]
    rfl

theorem applyStep_len (s : BuildState) (st : BuildStep) :
    (applyStep s st).len = s.len + 1 := by
  cases st with
  | newArg => rfl
  | newExpr f l => rfl
  | newCall args => simp [applyStep, foldl_write_len]

theorem foldl_write_inv (n : Nat) (args : List Nat) (s : BuildState)
    (hargs : ∀ a ∈ args, a < n)
    (hs : ∀ i j, s.owner i = some j → i < j ∧ j ≤ n) :
    ∀ i j, (args.foldl (fun acc i => writeOwner acc i n) s).owner i = some j →
      i < j ∧ j ≤ n := by
  induction args generalizing s with
  | nil => exact hs
  | cons a rest ih =>
    intro i j h
    refine ih (writeOwner s a n) (fun b hb => hargs b (by simp [hb])) ?_ i j h
    intro i j hij
    simp [writeOwner] at hij
    by_cases hia : i = a
    · simp [hia] at hij
      subst hij
      exact ⟨hia ▸ hargs a (by simp), le_refl n⟩
    · simp [hia] at hij
      exact hs i j hij

/-- The construction invariant: every owner link points to a strictly newer
node that already exists. -/
def ownerInv (s : BuildState) : Prop :=
  ∀ i j, s.owner i = some j → i < j ∧ j < s.len

theorem ownerInv_applyStep (s : BuildState) (st : BuildStep)
    (hok : stepOk s.len st = true) (hs : ownerInv s) :
    ownerInv (applyStep s st) := by
  cases st with
  | newArg =>
    intro i j h
    have := hs i j h
    simp [applyStep]
    omega
  | newExpr f l =>
    simp [stepOk] at hok
    intro i j h
    simp [applyStep, writeOwner] at h ⊢
    by_cases hil : i = l
    · simp [hil] at h
      omega
    · simp [hil] at h
      by_cases hif : i = f
      · simp [hif] at h
        omega
      · simp [hif] at h
        have := hs i j h
        omega
  | newCall args =>
    simp [stepOk] at hok
    intro i j h
    simp [applyStep] at h ⊢
    have := foldl_write_inv s.len args s hok
      (fun i j hij => ⟨(hs i j hij).1, Nat.le_of_lt (hs i j hij).2⟩) i j h
    rw [foldl_write_len]
    omega

theorem ownerInv_runSteps_aux (steps : List BuildStep) :
    ∀ s : BuildState, validFrom s.len steps = true → ownerInv s →
      ownerInv (steps.foldl applyStep s) := by
  induction steps with
  | nil => intro s _ hs; exact hs
  | cons st rest ih =>
    intro s hv hs
    simp [validFrom] at hv
    obtain ⟨hok, hrest⟩ := hv
    have h1 : ownerInv (applyStep s st) := ownerInv_applyStep s st hok hs
    have h2 : (applyStep s st).len = s.len + 1 := applyStep_len s st
    exact ih (applyStep s st) (by rw [h2]; exact hrest) h1

theorem ownerInv_runSteps (steps : List BuildStep)
    (hv : validFrom 0 steps = true) : ownerInv (runSteps steps) :=
  ownerInv_runSteps_aux steps emptyState hv (fun i j h => by
    simp [emptyState] at h)

/-- The `master` walk (`ExcelComposite.master`): follow `_owner` links until
a node with no owner; `fuel` bounds the walk. -/
def masterChase (s : BuildState) : Nat → Nat → Nat
  | 0, i => i
  | fuel + 1, i =>
    match s.owner i with
    | none => i
    | some j => masterChase s fuel j

theorem masterChase_reaches_none (s : BuildState) (hs : ownerInv s) :
    ∀ fuel i, s.len ≤ i + fuel → s.owner (masterChase s fuel i) = none := by
  intro fuel
  induction fuel with
  | zero =>
    intro i hi
    simp [masterChase]
    cases h : s.owner i with
    | none => rfl
    | some j =>
      have := hs i j h
      omega
  | succ m ih =>
    intro i hi
    cases h : s.owner i with
    | none => simp [masterChase, h]
    | some j =>
      simp [masterChase, h]
      have hji := hs i j h
      exact ih j (by omega)

/-- C7 amended: the owner reference of a node is overwritten whenever the
node is accepted again by a later-built expression or call (see the
counterexample), but every owner link always points to a strictly
newer node, so the owner chain of any valid construction history is acyclic
and the `master` walk terminates at an ownerless node within `len` steps. -/
theorem owner_chain_acyclic_master_terminates (steps : List BuildStep)
    (hv : validFrom 0 steps = true) :
    (∀ i j, (runSteps steps).owner i = some j →
      i < j ∧ j < (runSteps steps).len) ∧
    (∀ i, (runSteps steps).owner
      (masterChase (runSteps steps) (runSteps steps).len i) = none) := by
  have hinv := ownerInv_runSteps steps hv
  exact ⟨hinv, fun i =>
    masterChase_reaches_none (runSteps steps) hinv (runSteps steps).len i
      (by omega)⟩

/-- Witness: the master walk on the concrete three-step history ends at an
ownerless node. -/
theorem owner_chain_acyclic_master_terminates_witness :
    validFrom 0 [BuildStep.newArg, BuildStep.newArg,
      BuildStep.newExpr 0 1] = true ∧
    (runSteps [BuildStep.newArg, BuildStep.newArg,
      BuildStep.newExpr 0 1]).owner
      (masterChase (runSteps [BuildStep.newArg, BuildStep.newArg,
        BuildStep.newExpr 0 1])
        (runSteps [BuildStep.newArg, BuildStep.newArg,
          BuildStep.newExpr 0 1]).len 0) = none :=
  ⟨by decide,
    (owner_chain_acyclic_master_terminates
      [BuildStep.newArg, BuildStep.newArg, BuildStep.newExpr 0 1]
      (by decide)).2 0⟩

end Xlformula
